import Mathlib

/-!
# Verification of the role reconciliation engine (`src/bot/bot.py`)

Shallow embedding of the Discord allowlist bot. The bot keeps one guild's
allowlist role consistent with a Supabase backend:

* `assign_role_to_member` — the idempotent grant primitive (bot.py lines 29-46);
* `on_handle` / `auto_assign_role` — the realtime change-feed listener path,
  including the best-effort congratulation DM (lines 60-72 and 82-112);
* `verify` — the member self-check command (lines 114-140);
* `sync` — the administrator reconciliation sweep (lines 142-182).

Members are identified by their Discord id (a `Nat`); roles by their role id.
External effects (the `member.add_roles` mutation, `member.send`, backend
queries, `guild.fetch_member`) are modelled by explicit oracles carried in an
`Env` / passed as `Except` values, exactly mirroring where the Python code can
observe success or a raised exception.
-/

namespace Bot

/-- A guild member: `discord.Member`, reduced to its id and its set of role
ids (`member.roles`; Discord role equality is by id). -/
structure Member where
  id : Nat
  roles : List Nat
deriving Repr, DecidableEq

/-- A guild: its role catalog (`guild.roles`, as role ids), the member cache
(`guild.get_member` looks here) and the members reachable by a live
`guild.fetch_member` call. -/
structure Guild where
  catalog : List Nat
  cached : List Member
  external : List Member
deriving Repr, DecidableEq

/-- Embeds `guild.get_role(rid)`: resolve a role id against the guild's catalog. -/
def Guild.get_role (g : Guild) (rid : Nat) : Option Nat :=
  if rid ∈ g.catalog then some rid else none

/-- Embeds `guild.get_member(d)`: cache lookup by id. -/
def Guild.get_member (g : Guild) (d : Nat) : Option Member :=
  g.cached.find? (fun m => m.id == d)

/-- Embeds `await guild.fetch_member(d)`: live lookup; `none` models the raised
`NotFound`/`HTTPException` that the callers catch. -/
def Guild.fetch_member (g : Guild) (d : Nat) : Option Member :=
  g.external.find? (fun m => m.id == d)

/-- In Python a `discord.Member` is one live object aliased by every lookup;
mutating it is visible everywhere. We model that by replacing the member with
a matching id in both lookup tables. -/
def Guild.updateMember (g : Guild) (m : Member) : Guild :=
  { g with
    cached := g.cached.map (fun x => if x.id = m.id then m else x),
    external := g.external.map (fun x => if x.id = m.id then m else x) }

/-- The process environment: the `ALLOWLIST_ROLE_ID` configuration value
(`int(os.getenv('ALLOWLIST_ROLE_ID', 0))`, so `0` means unset), whether
`bot.get_guild(GUILD_ID)` succeeds, and oracles for the two remote effects:
`grantFail d = some e` means `member.add_roles` on member `d` raises an
exception whose `str` is `e` (`none` = mutation succeeds); `sendFail d` means
`member.send` on member `d` raises. -/
structure Env where
  ALLOWLIST_ROLE_ID : Nat
  guildVisible : Bool
  grantFail : Nat → Option String
  sendFail : Nat → Bool

/-- Result of one `assign_role_to_member` call: the returned
`(success, reason)` pair, the member's state afterwards, and how many
`member.add_roles` mutation calls were attempted. -/
structure GrantResult where
  success : Bool
  reason : String
  member : Member
  attempts : Nat
deriving Repr, DecidableEq

/-- Embeds `assign_role_to_member` (bot.py lines 29-46), the grant primitive:

```python
if not ALLOWLIST_ROLE_ID: return False, "Role ID not configured"
role = member.guild.get_role(ALLOWLIST_ROLE_ID)
if not role: return False, "Role not found in server"
if role in member.roles: return True, "Already has role"
try:
    await member.add_roles(role)
    return True, "Role assigned"
except Exception as e:
    return False, str(e)
```

`catalog` is `member.guild`'s role catalog. -/
def assign_role_to_member (env : Env) (catalog : List Nat) (m : Member) :
    GrantResult :=
  if env.ALLOWLIST_ROLE_ID = 0 then
    ⟨false, "Role ID not configured", m, 0⟩
  else
    match (Guild.get_role ⟨catalog, [], []⟩ env.ALLOWLIST_ROLE_ID) with
    | none => ⟨false, "Role not found in server", m, 0⟩
    | some role =>
      if role ∈ m.roles then
        ⟨true, "Already has role", m, 0⟩
      else
        match env.grantFail m.id with
        | none => ⟨true, "Role assigned", { m with roles := m.roles ++ [role] }, 1⟩
        | some e => ⟨false, e, m, 1⟩

/-! ## Listener path: `on_handle` and `auto_assign_role` -/

/-- Mutable process state threaded through the entry points: the guild, the
number of `member.send` dispatch attempts, and the number of DMs actually
delivered (a dispatch whose `member.send` raises is attempted but not
delivered; the exception is swallowed by `except: pass`). -/
structure World where
  guild : Guild
  dmAttempts : Nat
  dmDelivered : Nat
deriving Repr, DecidableEq

/-- What `auto_assign_role` (bot.py lines 82-112) did: returned early because
`bot.get_guild` found no guild, returned early because the member is neither
cached nor fetchable, or ran `assign_role_to_member` with the given
`(success, reason)` outcome. -/
inductive AutoResult where
  | noGuild
  | notInServer
  | done (success : Bool) (reason : String)
deriving Repr, DecidableEq

/-- Shared member resolution used by `auto_assign_role` and `sync`:
`guild.get_member(d)` first, then `guild.fetch_member(d)` with the raised
exception caught by the caller (modelled as `none`). -/
def lookupMember (g : Guild) (d : Nat) : Option Member :=
  match g.get_member d with
  | some m => some m
  | none => g.fetch_member d

/-- Embeds `auto_assign_role(discord_id)` (bot.py lines 82-112): resolve the guild
and the member, call `assign_role_to_member`, and on any success dispatch the
congratulation DM, swallowing a `member.send` failure:

```python
success, reason = await assign_role_to_member(member)
if success:
    try:
        ...
        await member.send(embed=embed)
    except:
        pass
``` -/
def auto_assign_role (env : Env) (w : World) (discord_id : Nat) :
    AutoResult × World :=
  if env.guildVisible then
    match lookupMember w.guild discord_id with
    | none => (AutoResult.notInServer, w)
    | some m =>
      let r := assign_role_to_member env w.guild.catalog m
      let g' := w.guild.updateMember r.member
      if r.success then
        (AutoResult.done r.success r.reason,
         { guild := g',
           dmAttempts := w.dmAttempts + 1,
           dmDelivered := w.dmDelivered + (if env.sendFail r.member.id then 0 else 1) })
      else
        (AutoResult.done r.success r.reason, { w with guild := g' })
  else
    (AutoResult.noGuild, w)

/-- A row of the realtime payload's `record`: `payload.get('record')` yields a
dict with `passed` and `discord_id` keys. `discord_id = none` models a missing
(or falsy) id; the Python guard `if is_passed and discord_id` also rejects the
falsy id `0`, which we keep explicit below. -/
structure ChangeRecord where
  passed : Bool
  discord_id : Option Nat
deriving Repr, DecidableEq

/-- A realtime `ChangeEvent` payload: `payload.get('record')`. -/
structure Payload where
  record : Option ChangeRecord
deriving Repr, DecidableEq

/-- Embeds `on_handle(payload)` (bot.py lines 60-72): drop payloads with no record,
no (or falsy) `discord_id`, or `passed` false; otherwise schedule
`auto_assign_role(discord_id)` on the bot loop. The scheduled coroutine's
result is returned as `some`. -/
def on_handle (env : Env) (w : World) (payload : Payload) :
    Option AutoResult × World :=
  match payload.record with
  | none => (none, w)
  | some r =>
    match r.discord_id with
    | none => (none, w)
    | some d =>
      if r.passed ∧ d ≠ 0 then
        let (res, w') := auto_assign_role env w d
        (some res, w')
      else
        (none, w)

/-! ## Commands: `verify` and `sync`

Backend queries (`supabase.table(...).execute()`) are remote calls that either
return rows or raise; each command takes its query's outcome as an
`Except String` value. An `Except.error` result of a command models the
exception propagating out of the command body uncaught (the user gets no
rendered reply/report). -/

/-- A row of the `users` table as seen by `verify`
(`select('*').eq('discord_id', ...)`): the member's id and quiz status. -/
structure UserRow where
  discord_id : Nat
  status : String
deriving Repr, DecidableEq

/-- The reply embed `verify` builds, reduced to its decision content. -/
inductive VerifyReply where
  | notRegistered
  | passed (role_status : String)
  | notPassed
deriving Repr, DecidableEq

/-- Embeds `verify` (bot.py lines 114-140): look the author up in the `users` table
(`q` is the backend response for `eq('discord_id', str(ctx.author.id))`); if
the status is `"passed"`, call `assign_role_to_member(ctx.author)` and render

```python
role_status = "✅ Assigned!" if reason == "Role assigned" \
    else "✅ Already assigned" if success else f"⚠️ {reason}"
```

`ctx.author` is the invoking guild member, looked up by id in the member
cache; in the source it always exists, so the `none` branch is unreachable
and modelled as an error. -/
def verify (env : Env) (w : World) (authorId : Nat)
    (q : Except String (List UserRow)) : Except String VerifyReply × World :=
  match q with
  | Except.error e => (Except.error e, w)
  | Except.ok rows =>
    match rows.head? with
    | none => (Except.ok VerifyReply.notRegistered, w)
    | some u =>
      if u.status = "passed" then
        match w.guild.get_member authorId with
        | none => (Except.error "ctx.author not in guild", w)
        | some author =>
          let r := assign_role_to_member env w.guild.catalog author
          let role_status :=
            if r.reason = "Role assigned" then "✅ Assigned!"
            else if r.success then "✅ Already assigned"
            else "⚠️ " ++ r.reason
          (Except.ok (VerifyReply.passed role_status),
           { w with guild := w.guild.updateMember r.member })
      else
        (Except.ok VerifyReply.notPassed, w)

/-- A row of the `users` table as seen by `sync`
(`select('discord_id').eq('status', 'passed')`). The loop runs
`d_id = int(user['discord_id'])` unguarded; `discord_id = some d` models a
value `int` parses to `d`, `none` a value on which `int(...)` raises. -/
structure SyncRow where
  discord_id : Option Nat
deriving Repr, DecidableEq

/-- The four counters of the sync report embed. -/
structure SweepReport where
  assigned : Nat
  already_had : Nat
  failed : Nat
  not_in_server : Nat
deriving Repr, DecidableEq

/-- The `for user in passed_users:` loop of `sync` (bot.py lines 157-174).
The guild is threaded because role grants mutate members mid-sweep; an
unparseable `discord_id` raises out of the loop, but mutations already
applied persist. -/
def syncLoop (env : Env) (g : Guild) (rows : List SyncRow)
    (rep : SweepReport) : Except String SweepReport × Guild :=
  match rows with
  | [] => (Except.ok rep, g)
  | row :: rest =>
    match row.discord_id with
    | none => (Except.error "int() raised on discord_id", g)
    | some d =>
      match lookupMember g d with
      | none =>
        syncLoop env g rest { rep with not_in_server := rep.not_in_server + 1 }
      | some m =>
        let r := assign_role_to_member env g.catalog m
        let g' := g.updateMember r.member
        if r.success then
          if r.reason = "Already has role" then
            syncLoop env g' rest { rep with already_had := rep.already_had + 1 }
          else
            syncLoop env g' rest { rep with assigned := rep.assigned + 1 }
        else
          syncLoop env g' rest { rep with failed := rep.failed + 1 }

/-- Embeds `sync` (bot.py lines 142-182): fetch all passed users (`q` is the backend
response), loop over them, and report the four counters. A backend failure or
an unparseable id propagates uncaught, so the report embed is never sent. -/
def sync (env : Env) (w : World) (q : Except String (List SyncRow)) :
    Except String SweepReport × World :=
  match q with
  | Except.error e => (Except.error e, w)
  | Except.ok rows =>
    let (res, g') := syncLoop env w.guild rows ⟨0, 0, 0, 0⟩
    (res, { w with guild := g' })

/-! ## Engine operation sequences

Every `member.add_roles` mutation in the source happens inside
`assign_role_to_member`, and every call of `assign_role_to_member` is reached
from one of the three entry points: a realtime event (`on_handle`), a `verify`
command, or a `sync` command. A sequence of engine operations is therefore a
list of these. -/

/-- One engine operation, with the external data it consumes: a realtime
payload, a `verify` invocation (invoking member's id plus the backend response
to its `users` query), or a `sync` invocation (backend response to its
passed-users query). -/
inductive Op where
  | event (p : Payload)
  | verifyCmd (authorId : Nat) (q : Except String (List UserRow))
  | syncCmd (q : Except String (List SyncRow))

/-- State effect of one engine operation (the reply/result is discarded). -/
def applyOp (env : Env) (w : World) : Op → World
  | Op.event p => (on_handle env w p).2
  | Op.verifyCmd a q => (verify env w a q).2
  | Op.syncCmd q => (sync env w q).2

/-- State effect of a sequence of engine operations, run left to right. -/
def applyOps (env : Env) (w : World) : List Op → World
  | [] => w
  | op :: ops => applyOps env (applyOp env w op) ops

/-! ## Guild well-formedness and role monotonicity -/

/-- Well-formedness of the guild model, reflecting that a `discord.Member` is
one object per id: member ids are duplicate-free in each lookup table, and a
member reachable both from the cache and by live fetch is the same member. -/
def Guild.wf (g : Guild) : Prop :=
  (g.cached.map Member.id).Nodup ∧ (g.external.map Member.id).Nodup ∧
    ∀ x ∈ g.cached, ∀ y ∈ g.external, x.id = y.id → x = y

instance (g : Guild) : Decidable g.wf := by
  unfold Guild.wf; infer_instance

/-- How one engine operation may change one member: it keeps the id and either
leaves the role set unchanged or, when the member lacked role `rid`, appends
exactly `rid`. In particular no role is ever removed. -/
def memberStep (rid : Nat) (x y : Member) : Prop :=
  y.id = x.id ∧ (y.roles = x.roles ∨ (rid ∉ x.roles ∧ y.roles = x.roles ++ [rid]))

/-- Guild-level grant-only evolution: the role catalog is unchanged and every
member evolved by `memberStep rid`. -/
def roleMono (rid : Nat) (g g' : Guild) : Prop :=
  g'.catalog = g.catalog ∧
    List.Forall₂ (memberStep rid) g.cached g'.cached ∧
    List.Forall₂ (memberStep rid) g.external g'.external

/-! ## Concrete fixtures used by witnesses and counterexamples -/

/-- A healthy deployment: role `1` configured, guild visible, every remote
mutation and DM succeeds. -/
def envA : Env := ⟨1, true, fun _ => none, fun _ => false⟩

/-- A deployment with `ALLOWLIST_ROLE_ID` unset (`int(os.getenv(...), 0)`
evaluating to `0`). -/
def envZero : Env := ⟨0, true, fun _ => none, fun _ => false⟩

/-- A deployment where `member.add_roles` raises an exception whose `str`
happens to be the literal success message. -/
def envBad : Env := ⟨1, true, fun _ => some "Role assigned", fun _ => false⟩

/-- Member `5`, present without the allowlist role. -/
def memA : Member := ⟨5, []⟩

/-- Member `7`, already holding the allowlist role. -/
def memB : Member := ⟨7, [1]⟩

/-- A guild whose catalog has the configured role and whose cache holds
`memA` and `memB`. -/
def guildA : Guild := ⟨[1], [memA, memB], []⟩

/-- Initial world over `guildA`, no DMs sent yet. -/
def worldA : World := ⟨guildA, 0, 0⟩

/-- A qualifying change event for member `5`. -/
def payloadA : Payload := ⟨some ⟨true, some 5⟩⟩

/-- Sweep listing: member `5` (present, no role), `9` (not in the guild),
`7` (already has the role). -/
def rowsA : List SyncRow := [⟨some 5⟩, ⟨some 9⟩, ⟨some 7⟩]

/-- One operation of each kind, for exercising operation sequences. -/
def opsA : List Op :=
  [Op.event payloadA, Op.verifyCmd 5 (Except.ok [⟨5, "passed"⟩]),
    Op.syncCmd (Except.ok rowsA)]

/-! ## Helper lemmas about `memberStep` and `roleMono` -/

theorem memberStep_refl (rid : Nat) (x : Member) : memberStep rid x x :=
  ⟨rfl, Or.inl rfl⟩

theorem memberStep_trans {rid : Nat} {x y z : Member} (h1 : memberStep rid x y)
    (h2 : memberStep rid y z) : memberStep rid x z := by
  obtain ⟨hid1, hr1⟩ := h1
  obtain ⟨hid2, hr2⟩ := h2
  refine ⟨hid2.trans hid1, ?_⟩
  rcases hr1 with h1' | ⟨hn1, h1'⟩
  · rw [h1'] at hr2
    exact hr2
  · rcases hr2 with h2' | ⟨hn2, _⟩
    · exact Or.inr ⟨hn1, by rw [h2', h1']⟩
    · exact absurd (h1' ▸ List.mem_append_right _ (List.mem_singleton.mpr rfl)) hn2

theorem memberStep_subset {rid : Nat} {x y : Member} (h : memberStep rid x y) :
    x.roles ⊆ y.roles := by
  rcases h.2 with h' | ⟨_, h'⟩
  · rw [h']
    exact List.Subset.refl _
  · rw [h']
    exact List.subset_append_left _ _

theorem roleMono_refl (rid : Nat) (g : Guild) : roleMono rid g g :=
  ⟨rfl, List.forall₂_same.2 fun x _ => memberStep_refl rid x,
    List.forall₂_same.2 fun x _ => memberStep_refl rid x⟩

theorem forall₂_memberStep_trans {rid : Nat} {l₁ l₂ l₃ : List Member}
    (h1 : List.Forall₂ (memberStep rid) l₁ l₂)
    (h2 : List.Forall₂ (memberStep rid) l₂ l₃) :
    List.Forall₂ (memberStep rid) l₁ l₃ := by
  induction h1 generalizing l₃ with
  | nil => cases h2; exact List.Forall₂.nil
  | cons hxy _ ih =>
    cases h2 with
    | cons hyz htl2 => exact List.Forall₂.cons (memberStep_trans hxy hyz) (ih htl2)

theorem roleMono_trans {rid : Nat} {g₁ g₂ g₃ : Guild} (h1 : roleMono rid g₁ g₂)
    (h2 : roleMono rid g₂ g₃) : roleMono rid g₁ g₃ :=
  ⟨h2.1.trans h1.1, forall₂_memberStep_trans h1.2.1 h2.2.1,
    forall₂_memberStep_trans h1.2.2 h2.2.2⟩

/-- The replacement function used by `Guild.updateMember` never changes ids. -/
theorem update_fun_id (m x : Member) :
    ((if x.id = m.id then m else x) : Member).id = x.id := by
  by_cases h : x.id = m.id
  · simp [h]
  · simp [h]

theorem updateMember_id_map (l : List Member) (m : Member) :
    (l.map (fun x => if x.id = m.id then m else x)).map Member.id =
      l.map Member.id := by
  rw [List.map_map]
  exact List.map_congr_left fun x _ => update_fun_id m x

/-- Replacing one member's state keeps the guild well-formed. -/
theorem wf_updateMember (g : Guild) (m : Member) (hwf : g.wf) :
    (g.updateMember m).wf := by
  obtain ⟨h1, h2, h3⟩ := hwf
  refine ⟨?_, ?_, ?_⟩
  · show ((g.cached.map _).map Member.id).Nodup
    rw [updateMember_id_map]
    exact h1
  · show ((g.external.map _).map Member.id).Nodup
    rw [updateMember_id_map]
    exact h2
  · intro x hx y hy hxy
    simp only [Guild.updateMember, List.mem_map] at hx hy
    obtain ⟨a, ha, rfl⟩ := hx
    obtain ⟨b, hb, rfl⟩ := hy
    rw [update_fun_id, update_fun_id] at hxy
    rw [h3 a ha b hb hxy]

/-- Updating a member found in a well-formed guild with a `memberStep`-related
state is a `roleMono` evolution of the whole guild. -/
theorem roleMono_updateMember {rid : Nat} {g : Guild} {m₀ m' : Member}
    (hwf : g.wf) (hmem : m₀ ∈ g.cached ∨ m₀ ∈ g.external)
    (hstep : memberStep rid m₀ m') : roleMono rid g (g.updateMember m') := by
  obtain ⟨h1, h2, h3⟩ := hwf
  have hid : m'.id = m₀.id := hstep.1
  refine ⟨rfl, ?_, ?_⟩
  · show List.Forall₂ _ g.cached (g.cached.map _)
    rw [List.forall₂_map_right_iff, List.forall₂_same]
    intro x hx
    by_cases hxid : x.id = m'.id
    · have hxm : x = m₀ := by
        have hxi : x.id = m₀.id := by rw [hxid, hid]
        rcases hmem with hc | he
        · exact List.inj_on_of_nodup_map h1 hx hc hxi
        · exact h3 x hx m₀ he hxi
      rw [if_pos hxid, hxm]
      exact hstep
    · rw [if_neg hxid]
      exact memberStep_refl rid x
  · show List.Forall₂ _ g.external (g.external.map _)
    rw [List.forall₂_map_right_iff, List.forall₂_same]
    intro x hx
    by_cases hxid : x.id = m'.id
    · have hxm : x = m₀ := by
        have hxi : x.id = m₀.id := by rw [hxid, hid]
        rcases hmem with hc | he
        · exact (h3 m₀ hc x hx hxi.symm).symm
        · exact List.inj_on_of_nodup_map h2 hx he hxi
      rw [if_pos hxid, hxm]
      exact hstep
    · rw [if_neg hxid]
      exact memberStep_refl rid x

/-! ## What the grant primitive does to the member -/

/-- One `assign_role_to_member` call changes the member by at most a single
guarded addition of the configured role. -/
theorem assign_memberStep (env : Env) (cat : List Nat) (m : Member) :
    memberStep env.ALLOWLIST_ROLE_ID m (assign_role_to_member env cat m).member := by
  unfold assign_role_to_member Guild.get_role
  by_cases h0 : env.ALLOWLIST_ROLE_ID = 0
  · rw [if_pos h0]
    exact memberStep_refl _ _
  · rw [if_neg h0]
    by_cases hc : env.ALLOWLIST_ROLE_ID ∈ cat
    · simp only [show (Guild.mk cat [] []).catalog = cat from rfl, if_pos hc]
      by_cases hm : env.ALLOWLIST_ROLE_ID ∈ m.roles
      · rw [if_pos hm]
        exact memberStep_refl _ _
      · rw [if_neg hm]
        cases env.grantFail m.id with
        | none => exact ⟨rfl, Or.inr ⟨hm, rfl⟩⟩
        | some e => exact memberStep_refl _ _
    · simp only [show (Guild.mk cat [] []).catalog = cat from rfl, if_neg hc]
      exact memberStep_refl _ _

theorem assign_member_id (env : Env) (cat : List Nat) (m : Member) :
    (assign_role_to_member env cat m).member.id = m.id :=
  (assign_memberStep env cat m).1

/-- A successful `lookupMember` returns a guild member with the looked-up id. -/
theorem lookupMember_mem {g : Guild} {d : Nat} {m : Member}
    (h : lookupMember g d = some m) :
    (m ∈ g.cached ∨ m ∈ g.external) ∧ m.id = d := by
  unfold lookupMember at h
  cases hf : g.get_member d with
  | some m' =>
    rw [hf] at h
    cases h
    unfold Guild.get_member at hf
    refine ⟨Or.inl (List.mem_of_find?_eq_some hf), ?_⟩
    have := List.find?_some hf
    simpa using this
  | none =>
    rw [hf] at h
    unfold Guild.fetch_member at h
    refine ⟨Or.inr (List.mem_of_find?_eq_some h), ?_⟩
    have := List.find?_some h
    simpa using this

/-! ## Each entry point only evolves the guild grant-monotonically -/

theorem auto_assign_role_mono (env : Env) (w : World) (d : Nat)
    (hwf : w.guild.wf) :
    roleMono env.ALLOWLIST_ROLE_ID w.guild (auto_assign_role env w d).2.guild ∧
      (auto_assign_role env w d).2.guild.wf := by
  unfold auto_assign_role
  by_cases hg : env.guildVisible
  · rw [if_pos hg]
    cases hl : lookupMember w.guild d with
    | none => exact ⟨roleMono_refl _ _, hwf⟩
    | some m =>
      obtain ⟨hmem, _⟩ := lookupMember_mem hl
      have hstep := assign_memberStep env w.guild.catalog m
      have hmono := roleMono_updateMember hwf hmem hstep
      have hwf' := wf_updateMember w.guild (assign_role_to_member env w.guild.catalog m).member hwf
      by_cases hs : (assign_role_to_member env w.guild.catalog m).success
      · simp only [hs, if_true]
        exact ⟨hmono, hwf'⟩
      · simp only [hs, if_false, Bool.false_eq_true]
        exact ⟨hmono, hwf'⟩
  · rw [if_neg hg]
    exact ⟨roleMono_refl _ _, hwf⟩

theorem on_handle_mono (env : Env) (w : World) (p : Payload)
    (hwf : w.guild.wf) :
    roleMono env.ALLOWLIST_ROLE_ID w.guild (on_handle env w p).2.guild ∧
      (on_handle env w p).2.guild.wf := by
  unfold on_handle
  split
  · exact ⟨roleMono_refl _ _, hwf⟩
  · split
    · exact ⟨roleMono_refl _ _, hwf⟩
    · split
      · exact auto_assign_role_mono env w _ hwf
      · exact ⟨roleMono_refl _ _, hwf⟩

theorem verify_mono (env : Env) (w : World) (a : Nat)
    (q : Except String (List UserRow)) (hwf : w.guild.wf) :
    roleMono env.ALLOWLIST_ROLE_ID w.guild (verify env w a q).2.guild ∧
      (verify env w a q).2.guild.wf := by
  unfold verify
  split
  · exact ⟨roleMono_refl _ _, hwf⟩
  · split
    · exact ⟨roleMono_refl _ _, hwf⟩
    · split
      · split
        · exact ⟨roleMono_refl _ _, hwf⟩
        · rename_i author hm
          have hmem : author ∈ w.guild.cached :=
            List.mem_of_find?_eq_some hm
          have hstep := assign_memberStep env w.guild.catalog author
          exact ⟨roleMono_updateMember hwf (Or.inl hmem) hstep,
            wf_updateMember _ _ hwf⟩
      · exact ⟨roleMono_refl _ _, hwf⟩

theorem syncLoop_mono (env : Env) :
    ∀ (rows : List SyncRow) (g : Guild) (rep : SweepReport), g.wf →
      roleMono env.ALLOWLIST_ROLE_ID g (syncLoop env g rows rep).2 ∧
        (syncLoop env g rows rep).2.wf := by
  intro rows
  induction rows with
  | nil => intro g rep hwf; exact ⟨roleMono_refl _ _, hwf⟩
  | cons row rest ih =>
    intro g rep hwf
    unfold syncLoop
    split
    · exact ⟨roleMono_refl _ _, hwf⟩
    · split
      · exact ih g _ hwf
      · rename_i m hl
        obtain ⟨hmem, _⟩ := lookupMember_mem hl
        have hstep := assign_memberStep env g.catalog m
        have hmono := roleMono_updateMember hwf hmem hstep
        have hwf' := wf_updateMember g (assign_role_to_member env g.catalog m).member hwf
        dsimp only
        split
        · split
          · obtain ⟨hmono', hwf''⟩ := ih _ _ hwf'
            exact ⟨roleMono_trans hmono hmono', hwf''⟩
          · obtain ⟨hmono', hwf''⟩ := ih _ _ hwf'
            exact ⟨roleMono_trans hmono hmono', hwf''⟩
        · obtain ⟨hmono', hwf''⟩ := ih _ _ hwf'
          exact ⟨roleMono_trans hmono hmono', hwf''⟩

theorem sync_mono (env : Env) (w : World) (q : Except String (List SyncRow))
    (hwf : w.guild.wf) :
    roleMono env.ALLOWLIST_ROLE_ID w.guild (sync env w q).2.guild ∧
      (sync env w q).2.guild.wf := by
  unfold sync
  cases q with
  | error e => exact ⟨roleMono_refl _ _, hwf⟩
  | ok rows => exact syncLoop_mono env rows w.guild ⟨0, 0, 0, 0⟩ hwf

theorem applyOp_mono (env : Env) (w : World) (op : Op) (hwf : w.guild.wf) :
    roleMono env.ALLOWLIST_ROLE_ID w.guild (applyOp env w op).guild ∧
      (applyOp env w op).guild.wf := by
  cases op with
  | event p => exact on_handle_mono env w p hwf
  | verifyCmd a q => exact verify_mono env w a q hwf
  | syncCmd q => exact sync_mono env w q hwf

theorem applyOps_mono (env : Env) :
    ∀ (ops : List Op) (w : World), w.guild.wf →
      roleMono env.ALLOWLIST_ROLE_ID w.guild (applyOps env w ops).guild ∧
        (applyOps env w ops).guild.wf := by
  intro ops
  induction ops with
  | nil => intro w hwf; exact ⟨roleMono_refl _ _, hwf⟩
  | cons op rest ih =>
    intro w hwf
    obtain ⟨hmono, hwf'⟩ := applyOp_mono env w op hwf
    obtain ⟨hmono', hwf''⟩ := ih (applyOp env w op) hwf'
    exact ⟨roleMono_trans hmono hmono', hwf''⟩

/-! ## Evaluation lemmas for the four `assign_role_to_member` branches -/

theorem assign_misconfigured (env : Env) (cat : List Nat) (m : Member)
    (h0 : env.ALLOWLIST_ROLE_ID = 0) :
    assign_role_to_member env cat m = ⟨false, "Role ID not configured", m, 0⟩ := by
  unfold assign_role_to_member
  rw [if_pos h0]

theorem assign_not_found (env : Env) (cat : List Nat) (m : Member)
    (h0 : env.ALLOWLIST_ROLE_ID ≠ 0) (hcat : env.ALLOWLIST_ROLE_ID ∉ cat) :
    assign_role_to_member env cat m = ⟨false, "Role not found in server", m, 0⟩ := by
  unfold assign_role_to_member Guild.get_role
  rw [if_neg h0]
  dsimp only
  rw [if_neg hcat]

theorem assign_already (env : Env) (cat : List Nat) (m : Member)
    (h0 : env.ALLOWLIST_ROLE_ID ≠ 0) (hcat : env.ALLOWLIST_ROLE_ID ∈ cat)
    (hhas : env.ALLOWLIST_ROLE_ID ∈ m.roles) :
    assign_role_to_member env cat m = ⟨true, "Already has role", m, 0⟩ := by
  unfold assign_role_to_member Guild.get_role
  rw [if_neg h0]
  dsimp only
  rw [if_pos hcat]
  dsimp only
  rw [if_pos hhas]

theorem assign_grants (env : Env) (cat : List Nat) (m : Member)
    (h0 : env.ALLOWLIST_ROLE_ID ≠ 0) (hcat : env.ALLOWLIST_ROLE_ID ∈ cat)
    (hnot : env.ALLOWLIST_ROLE_ID ∉ m.roles) (hok : env.grantFail m.id = none) :
    assign_role_to_member env cat m =
      ⟨true, "Role assigned",
        { m with roles := m.roles ++ [env.ALLOWLIST_ROLE_ID] }, 1⟩ := by
  unfold assign_role_to_member Guild.get_role
  rw [if_neg h0]
  dsimp only
  rw [if_pos hcat]
  dsimp only
  rw [if_neg hnot, hok]

theorem assign_fails (env : Env) (cat : List Nat) (m : Member) (e : String)
    (h0 : env.ALLOWLIST_ROLE_ID ≠ 0) (hcat : env.ALLOWLIST_ROLE_ID ∈ cat)
    (hnot : env.ALLOWLIST_ROLE_ID ∉ m.roles)
    (herr : env.grantFail m.id = some e) :
    assign_role_to_member env cat m = ⟨false, e, m, 1⟩ := by
  unfold assign_role_to_member Guild.get_role
  rw [if_neg h0]
  dsimp only
  rw [if_pos hcat]
  dsimp only
  rw [if_neg hnot, herr]

/-! ## Lookup after an update -/

/-- After replacing the member found under id `d`, a fresh `find?` under `d`
returns the replacement. -/
theorem find?_map_update (l : List Member) (d : Nat) (m₀ m' : Member)
    (h : l.find? (fun x => x.id == d) = some m₀) (hid : m'.id = d) :
    (l.map (fun x => if x.id = m'.id then m' else x)).find?
      (fun x => x.id == d) = some m' := by
  induction l with
  | nil => simp at h
  | cons a t ih =>
    by_cases ha : a.id = d
    · rw [List.find?_cons_of_pos _ (by simpa using ha)] at h
      rw [List.map_cons, if_pos (by rw [ha, hid])]
      rw [List.find?_cons_of_pos _ (by simpa using hid)]
    · rw [List.find?_cons_of_neg _ (by simpa using ha)] at h
      rw [List.map_cons, if_neg (fun hc => ha (by rw [hc, hid]))]
      rw [List.find?_cons_of_neg _ (by simpa using ha)]
      exact ih h

theorem get_member_updateMember {g : Guild} {d : Nat} {m₀ : Member}
    (m' : Member) (h : g.get_member d = some m₀) (hid : m'.id = d) :
    (g.updateMember m').get_member d = some m' :=
  find?_map_update g.cached d m₀ m' h hid

/-! ## The sweep loop: completion and counter accounting -/

theorem syncLoop_sum (env : Env) :
    ∀ (rows : List SyncRow) (g : Guild) (rep rep' : SweepReport),
      (syncLoop env g rows rep).1 = Except.ok rep' →
      rep'.assigned + rep'.already_had + rep'.failed + rep'.not_in_server =
        rep.assigned + rep.already_had + rep.failed + rep.not_in_server +
          rows.length := by
  intro rows
  induction rows with
  | nil =>
    intro g rep rep' h
    have hrep : rep = rep' := by
      simpa [syncLoop] using h
    rw [hrep, List.length_nil]
    omega
  | cons row rest ih =>
    intro g rep rep' h
    unfold syncLoop at h
    rw [List.length_cons]
    revert h
    split
    · intro h
      simp at h
    · split
      · intro h
        have := ih _ _ _ h
        rw [this]
        dsimp only
        omega
      · dsimp only
        split
        · split
          · intro h
            have := ih _ _ _ h
            rw [this]
            dsimp only
            omega
          · intro h
            have := ih _ _ _ h
            rw [this]
            dsimp only
            omega
        · intro h
          have := ih _ _ _ h
          rw [this]
          dsimp only
          omega

theorem syncLoop_isOk (env : Env) :
    ∀ (rows : List SyncRow) (g : Guild) (rep : SweepReport),
      (∀ r ∈ rows, r.discord_id.isSome) →
      (syncLoop env g rows rep).1.isOk = true := by
  intro rows
  induction rows with
  | nil =>
    intro g rep _
    rfl
  | cons row rest ih =>
    intro g rep hall
    unfold syncLoop
    split
    · rename_i hnone
      have := hall row (List.mem_cons_self _ _)
      rw [hnone] at this
      simp at this
    · split
      · exact ih _ _ fun r hr => hall r (List.mem_cons_of_mem _ hr)
      · dsimp only
        split
        · split
          · exact ih _ _ fun r hr => hall r (List.mem_cons_of_mem _ hr)
          · exact ih _ _ fun r hr => hall r (List.mem_cons_of_mem _ hr)
        · exact ih _ _ fun r hr => hall r (List.mem_cons_of_mem _ hr)

/-! ## Claim C1 — idempotency of the grant primitive -/

/-- C1, counterexample to the claim as stated. The claim quantifies over
*every* membership handle, but for a member who already holds the configured
role the first of the two calls already returns `(True, "Already has role")`,
not the `granted_new` outcome `(True, "Role assigned")` the claim requires of
the first call. -/
theorem claim1_counterexample :
    (assign_role_to_member envA [1] memB).reason = "Already has role" ∧
      (assign_role_to_member envA [1] memB).reason ≠ "Role assigned" := by
  decide

/-- C1, amended: for a handle that initially lacks the configured role, with
the role configured, present in the catalog, and the grant mutation
succeeding, calling `assign_role_to_member` twice in sequence yields
`(True, "Role assigned")` then `(True, "Already has role")`, and the member's
role set is identical after either call (the second call does not change the
member). -/
theorem claim1_idempotent (env : Env) (cat : List Nat) (m : Member)
    (h0 : env.ALLOWLIST_ROLE_ID ≠ 0) (hcat : env.ALLOWLIST_ROLE_ID ∈ cat)
    (hnot : env.ALLOWLIST_ROLE_ID ∉ m.roles)
    (hok : env.grantFail m.id = none) :
    (assign_role_to_member env cat m).success = true ∧
    (assign_role_to_member env cat m).reason = "Role assigned" ∧
    (assign_role_to_member env cat
      (assign_role_to_member env cat m).member).success = true ∧
    (assign_role_to_member env cat
      (assign_role_to_member env cat m).member).reason = "Already has role" ∧
    (assign_role_to_member env cat
        (assign_role_to_member env cat m).member).member =
      (assign_role_to_member env cat m).member := by
  have h1 := assign_grants env cat m h0 hcat hnot hok
  have h2 := assign_already env cat
    { m with roles := m.roles ++ [env.ALLOWLIST_ROLE_ID] } h0 hcat
    (List.mem_append_right _ (List.mem_singleton.mpr rfl))
  rw [h1]
  dsimp only
  rw [h2]
  exact ⟨rfl, rfl, rfl, rfl, rfl⟩

/-- C1, witness for the amended theorem at member `5` of `guildA`. -/
theorem claim1_witness :
    (envA.ALLOWLIST_ROLE_ID ≠ 0 ∧ envA.ALLOWLIST_ROLE_ID ∈ [1] ∧
      envA.ALLOWLIST_ROLE_ID ∉ memA.roles ∧ envA.grantFail memA.id = none) ∧
    ((assign_role_to_member envA [1] memA).success = true ∧
      (assign_role_to_member envA [1] memA).reason = "Role assigned" ∧
      (assign_role_to_member envA [1]
        (assign_role_to_member envA [1] memA).member).success = true ∧
      (assign_role_to_member envA [1]
        (assign_role_to_member envA [1] memA).member).reason =
          "Already has role" ∧
      (assign_role_to_member envA [1]
          (assign_role_to_member envA [1] memA).member).member =
        (assign_role_to_member envA [1] memA).member) :=
  ⟨⟨by decide, by decide, by decide, rfl⟩,
    claim1_idempotent envA [1] memA (by decide) (by decide) (by decide) rfl⟩

/-! ## Claim C3 — outcome classification of the grant primitive -/

/-- C3: with a role identifier configured (non-zero), `assign_role_to_member`
classifies exactly as the spec's algorithm: unresolvable role →
`(False, "Role not found in server")` with no mutation attempt; role already
held → `(True, "Already has role")` with no mutation attempt; otherwise one
mutation attempt returning `(True, "Role assigned")` on success or
`(False, cause)` on failure. -/
theorem claim3_classification (env : Env) (cat : List Nat) (m : Member)
    (h0 : env.ALLOWLIST_ROLE_ID ≠ 0) :
    (env.ALLOWLIST_ROLE_ID ∉ cat →
      assign_role_to_member env cat m =
        ⟨false, "Role not found in server", m, 0⟩) ∧
    (env.ALLOWLIST_ROLE_ID ∈ cat → env.ALLOWLIST_ROLE_ID ∈ m.roles →
      assign_role_to_member env cat m = ⟨true, "Already has role", m, 0⟩) ∧
    (env.ALLOWLIST_ROLE_ID ∈ cat → env.ALLOWLIST_ROLE_ID ∉ m.roles →
      env.grantFail m.id = none →
      assign_role_to_member env cat m =
        ⟨true, "Role assigned",
          { m with roles := m.roles ++ [env.ALLOWLIST_ROLE_ID] }, 1⟩) ∧
    (∀ e, env.ALLOWLIST_ROLE_ID ∈ cat → env.ALLOWLIST_ROLE_ID ∉ m.roles →
      env.grantFail m.id = some e →
      assign_role_to_member env cat m = ⟨false, e, m, 1⟩) :=
  ⟨fun hcat => assign_not_found env cat m h0 hcat,
    fun hcat hhas => assign_already env cat m h0 hcat hhas,
    fun hcat hnot hok => assign_grants env cat m h0 hcat hnot hok,
    fun e hcat hnot herr => assign_fails env cat m e h0 hcat hnot herr⟩

/-- C3, witness: member `7` already holds role `1`, so the call classifies as
`already_granted` with no mutation. -/
theorem claim3_witness :
    envA.ALLOWLIST_ROLE_ID ≠ 0 ∧
      assign_role_to_member envA [1] memB = ⟨true, "Already has role", memB, 0⟩ :=
  ⟨by decide,
    (claim3_classification envA [1] memB (by decide)).2.1 (by decide) (by decide)⟩

/-! ## Claim C5 — misconfiguration guard -/

/-- C5: with no role identifier configured (`ALLOWLIST_ROLE_ID` falsy, i.e.
zero), every `assign_role_to_member` call on any member returns
`(False, "Role ID not configured")`, leaves the member unchanged and attempts
zero mutations. -/
theorem claim5_unconfigured_guard (env : Env) (cat : List Nat) (m : Member)
    (h0 : env.ALLOWLIST_ROLE_ID = 0) :
    assign_role_to_member env cat m = ⟨false, "Role ID not configured", m, 0⟩ :=
  assign_misconfigured env cat m h0

/-- C5, witness at `envZero` and member `5`. -/
theorem claim5_witness :
    envZero.ALLOWLIST_ROLE_ID = 0 ∧
      assign_role_to_member envZero [1] memA =
        ⟨false, "Role ID not configured", memA, 0⟩ :=
  ⟨rfl, claim5_unconfigured_guard envZero [1] memA rfl⟩

/-! ## Claim C10 — pairing of the boolean with the two success strings -/

/-- C10, counterexample to the claim as stated: the failure branch returns
`(False, str(e))` with `str(e)` supplied by the raised exception, so if the
exception's message happens to be the literal `"Role assigned"`, the call
returns `(False, "Role assigned")` and the claimed equivalence between the
boolean and the two success strings fails. -/
theorem claim10_counterexample :
    (assign_role_to_member envBad [1] memA).success = false ∧
      (assign_role_to_member envBad [1] memA).reason = "Role assigned" := by
  decide

/-- C10, amended: provided the mutation-failure cause is never itself one of
the two success strings, the returned boolean is `True` exactly when the
returned string is `"Already has role"` or `"Role assigned"` — the pairing
the callers' string-based classification relies on. -/
theorem claim10_success_reason (env : Env) (cat : List Nat) (m : Member)
    (hgf : ∀ e, env.grantFail m.id = some e →
      e ≠ "Already has role" ∧ e ≠ "Role assigned") :
    (assign_role_to_member env cat m).success = true ↔
      ((assign_role_to_member env cat m).reason = "Already has role" ∨
        (assign_role_to_member env cat m).reason = "Role assigned") := by
  by_cases h0 : env.ALLOWLIST_ROLE_ID = 0
  · rw [assign_misconfigured env cat m h0]
    dsimp only
    decide
  · by_cases hcat : env.ALLOWLIST_ROLE_ID ∈ cat
    · by_cases hhas : env.ALLOWLIST_ROLE_ID ∈ m.roles
      · rw [assign_already env cat m h0 hcat hhas]
        dsimp only
        decide
      · cases herr : env.grantFail m.id with
        | none =>
          rw [assign_grants env cat m h0 hcat hhas herr]
          dsimp only
          decide
        | some e =>
          rw [assign_fails env cat m e h0 hcat hhas herr]
          dsimp only
          obtain ⟨hne1, hne2⟩ := hgf e herr
          constructor
          · intro h
            exact absurd h (by decide)
          · intro h
            rcases h with h | h
            · exact absurd h hne1
            · exact absurd h hne2
    · rw [assign_not_found env cat m h0 hcat]
      dsimp only
      decide

/-- C10, witness: in `envA` no mutation ever fails, so the side condition
holds vacuously and the equivalence holds at member `5`. -/
theorem claim10_witness :
    (∀ e, envA.grantFail memA.id = some e →
      e ≠ "Already has role" ∧ e ≠ "Role assigned") ∧
    ((assign_role_to_member envA [1] memA).success = true ↔
      ((assign_role_to_member envA [1] memA).reason = "Already has role" ∨
        (assign_role_to_member envA [1] memA).reason = "Role assigned")) :=
  ⟨(fun _ h => nomatch h),
    claim10_success_reason envA [1] memA (fun _ h => nomatch h)⟩

/-! ## Evaluation lemmas for the listener path -/

theorem lookupMember_of_get {g : Guild} {d : Nat} {m : Member}
    (hm : g.get_member d = some m) : lookupMember g d = some m := by
  unfold lookupMember
  rw [hm]

/-- A qualifying payload hands its id straight to `auto_assign_role`. -/
theorem on_handle_passed (env : Env) (w : World) (d : Nat) (hd : d ≠ 0) :
    on_handle env w ⟨some ⟨true, some d⟩⟩ =
      (some (auto_assign_role env w d).1, (auto_assign_role env w d).2) := by
  unfold on_handle
  dsimp only
  rw [if_pos ⟨rfl, hd⟩]

/-- The listener path on a cached member who lacks the role, with everything
configured and the mutation succeeding: a fresh grant plus one DM dispatch. -/
theorem auto_grants (env : Env) (w : World) (d : Nat) (m : Member)
    (hg : env.guildVisible = true) (hm : w.guild.get_member d = some m)
    (h0 : env.ALLOWLIST_ROLE_ID ≠ 0)
    (hcat : env.ALLOWLIST_ROLE_ID ∈ w.guild.catalog)
    (hnot : env.ALLOWLIST_ROLE_ID ∉ m.roles)
    (hok : env.grantFail m.id = none) :
    auto_assign_role env w d =
      (AutoResult.done true "Role assigned",
        ⟨w.guild.updateMember
            { m with roles := m.roles ++ [env.ALLOWLIST_ROLE_ID] },
          w.dmAttempts + 1,
          w.dmDelivered + (if env.sendFail m.id then 0 else 1)⟩) := by
  unfold auto_assign_role
  rw [if_pos hg, lookupMember_of_get hm]
  dsimp only
  rw [assign_grants env w.guild.catalog m h0 hcat hnot hok]
  dsimp only
  rw [if_pos rfl]

/-- The listener path on a cached member who already has the role: the
`already_granted` outcome still dispatches a DM. -/
theorem auto_already (env : Env) (w : World) (d : Nat) (m : Member)
    (hg : env.guildVisible = true) (hm : w.guild.get_member d = some m)
    (h0 : env.ALLOWLIST_ROLE_ID ≠ 0)
    (hcat : env.ALLOWLIST_ROLE_ID ∈ w.guild.catalog)
    (hhas : env.ALLOWLIST_ROLE_ID ∈ m.roles) :
    auto_assign_role env w d =
      (AutoResult.done true "Already has role",
        ⟨w.guild.updateMember m, w.dmAttempts + 1,
          w.dmDelivered + (if env.sendFail m.id then 0 else 1)⟩) := by
  unfold auto_assign_role
  rw [if_pos hg, lookupMember_of_get hm]
  dsimp only
  rw [assign_already env w.guild.catalog m h0 hcat hhas]
  dsimp only
  rw [if_pos rfl]

/-! ## Claim C2 — replaying the same change event -/

/-- C2, counterexample to the claim as stated. Delivering the same qualifying
event for member `5` (present, initially without the role) twice does yield
`granted_new` then `already_granted`, but the congratulation DM is dispatched
on *both* deliveries (the source sends it under `if success:`, which is also
true for "Already has role"), so the claimed "at most one notification
dispatch across the two deliveries" is false: the dispatch count ends at 2. -/
theorem claim2_counterexample :
    (on_handle envA worldA payloadA).1 =
      some (AutoResult.done true "Role assigned") ∧
    (on_handle envA (on_handle envA worldA payloadA).2 payloadA).1 =
      some (AutoResult.done true "Already has role") ∧
    ¬ ((on_handle envA (on_handle envA worldA payloadA).2
        payloadA).2.dmAttempts ≤ 1) := by
  decide

/-- C2, amended: delivering the same qualifying `ChangeEvent` twice for a
cached member who initially lacks the role (role configured and resolvable,
mutation succeeding) produces `granted_new` on the first delivery and
`already_granted` on the second, the member's role set is the same after
either delivery, and the DM notification is dispatched exactly once per
delivery — hence twice, not at most once. -/
theorem claim2_replay (env : Env) (w : World) (d : Nat) (m : Member)
    (hg : env.guildVisible = true) (hd : d ≠ 0)
    (hm : w.guild.get_member d = some m)
    (h0 : env.ALLOWLIST_ROLE_ID ≠ 0)
    (hcat : env.ALLOWLIST_ROLE_ID ∈ w.guild.catalog)
    (hnot : env.ALLOWLIST_ROLE_ID ∉ m.roles)
    (hok : env.grantFail m.id = none) :
    (on_handle env w ⟨some ⟨true, some d⟩⟩).1 =
      some (AutoResult.done true "Role assigned") ∧
    (on_handle env (on_handle env w ⟨some ⟨true, some d⟩⟩).2
        ⟨some ⟨true, some d⟩⟩).1 =
      some (AutoResult.done true "Already has role") ∧
    (on_handle env w ⟨some ⟨true, some d⟩⟩).2.guild.get_member d =
      some { m with roles := m.roles ++ [env.ALLOWLIST_ROLE_ID] } ∧
    (on_handle env (on_handle env w ⟨some ⟨true, some d⟩⟩).2
        ⟨some ⟨true, some d⟩⟩).2.guild.get_member d =
      some { m with roles := m.roles ++ [env.ALLOWLIST_ROLE_ID] } ∧
    (on_handle env (on_handle env w ⟨some ⟨true, some d⟩⟩).2
        ⟨some ⟨true, some d⟩⟩).2.dmAttempts = w.dmAttempts + 2 := by
  have hmid : m.id = d := by simpa using List.find?_some hm
  have h1 := auto_grants env w d m hg hm h0 hcat hnot hok
  have hp1 := on_handle_passed env w d hd
  rw [h1] at hp1
  have hm2 : ((on_handle env w ⟨some ⟨true, some d⟩⟩).2).guild.get_member d =
      some { m with roles := m.roles ++ [env.ALLOWLIST_ROLE_ID] } := by
    rw [hp1]
    exact get_member_updateMember _ hm hmid
  have h2 := auto_already env ((on_handle env w ⟨some ⟨true, some d⟩⟩).2) d
    { m with roles := m.roles ++ [env.ALLOWLIST_ROLE_ID] } hg hm2 h0
    (by rw [hp1]; exact hcat)
    (List.mem_append_right _ (List.mem_singleton.mpr rfl))
  have hp2 := on_handle_passed env ((on_handle env w ⟨some ⟨true, some d⟩⟩).2) d hd
  rw [h2] at hp2
  refine ⟨?_, ?_, hm2, ?_, ?_⟩
  · rw [hp1]
  · rw [hp2]
  · rw [hp2]
    exact get_member_updateMember _ hm2 hmid
  · rw [hp2]
    dsimp only
    rw [hp1]

/-- C2, witness for the amended theorem: the concrete replay over `guildA`. -/
theorem claim2_witness :
    (envA.guildVisible = true ∧ (5 : Nat) ≠ 0 ∧
      worldA.guild.get_member 5 = some memA ∧
      envA.ALLOWLIST_ROLE_ID ≠ 0 ∧
      envA.ALLOWLIST_ROLE_ID ∈ worldA.guild.catalog ∧
      envA.ALLOWLIST_ROLE_ID ∉ memA.roles ∧
      envA.grantFail memA.id = none) ∧
    ((on_handle envA worldA ⟨some ⟨true, some 5⟩⟩).1 =
      some (AutoResult.done true "Role assigned") ∧
    (on_handle envA (on_handle envA worldA ⟨some ⟨true, some 5⟩⟩).2
        ⟨some ⟨true, some 5⟩⟩).1 =
      some (AutoResult.done true "Already has role") ∧
    (on_handle envA worldA ⟨some ⟨true, some 5⟩⟩).2.guild.get_member 5 =
      some { memA with roles := memA.roles ++ [envA.ALLOWLIST_ROLE_ID] } ∧
    (on_handle envA (on_handle envA worldA ⟨some ⟨true, some 5⟩⟩).2
        ⟨some ⟨true, some 5⟩⟩).2.guild.get_member 5 =
      some { memA with roles := memA.roles ++ [envA.ALLOWLIST_ROLE_ID] } ∧
    (on_handle envA (on_handle envA worldA ⟨some ⟨true, some 5⟩⟩).2
        ⟨some ⟨true, some 5⟩⟩).2.dmAttempts = worldA.dmAttempts + 2) :=
  ⟨⟨rfl, by decide, by decide, by decide, by decide, by decide, rfl⟩,
    claim2_replay envA worldA 5 memA rfl (by decide) (by decide) (by decide)
      (by decide) (by decide) rfl⟩

/-! ## Claim C8 — notification failures are swallowed -/

/-- C8: the convergence outcome of the listener path, the resulting guild
state and even the dispatch count are all unaffected by whether `member.send`
succeeds or raises: replacing the DM-failure oracle changes nothing but the
delivered-DM count. -/
theorem claim8_dm_failure_swallowed (env : Env) (f : Nat → Bool) (w : World)
    (d : Nat) :
    (auto_assign_role { env with sendFail := f } w d).1 =
      (auto_assign_role env w d).1 ∧
    (auto_assign_role { env with sendFail := f } w d).2.guild =
      (auto_assign_role env w d).2.guild ∧
    (auto_assign_role { env with sendFail := f } w d).2.dmAttempts =
      (auto_assign_role env w d).2.dmAttempts := by
  obtain ⟨a, g, gf, sf⟩ := env
  have hassign : ∀ (cat : List Nat) (m : Member),
      assign_role_to_member ⟨a, g, gf, f⟩ cat m =
        assign_role_to_member ⟨a, g, gf, sf⟩ cat m := fun _ _ => rfl
  unfold auto_assign_role
  dsimp only
  by_cases hg : g = true
  · rw [if_pos hg, if_pos hg]
    cases hl : lookupMember w.guild d with
    | none => exact ⟨rfl, rfl, rfl⟩
    | some m =>
      dsimp only
      rw [hassign w.guild.catalog m]
      by_cases hs : (assign_role_to_member ⟨a, g, gf, sf⟩ w.guild.catalog m).success
      · rw [if_pos hs, if_pos hs]
        exact ⟨rfl, rfl, rfl⟩
      · rw [if_neg hs, if_neg hs]
        exact ⟨rfl, rfl, rfl⟩
  · rw [if_neg hg, if_neg hg]
    exact ⟨rfl, rfl, rfl⟩

/-! ## Claim C9 — the self-check command never sends the DM -/

/-- C9: `verify` never dispatches the private congratulation notification —
for every input (including those where its opportunistic grant call performs
a brand-new grant) both DM counters are exactly those of the initial state;
only the listener path (`auto_assign_role`) touches them. -/
theorem claim9_verify_sends_no_dm (env : Env) (w : World) (a : Nat)
    (q : Except String (List UserRow)) :
    (verify env w a q).2.dmAttempts = w.dmAttempts ∧
    (verify env w a q).2.dmDelivered = w.dmDelivered := by
  unfold verify
  split
  · exact ⟨rfl, rfl⟩
  · split
    · exact ⟨rfl, rfl⟩
    · split
      · split
        · exact ⟨rfl, rfl⟩
        · exact ⟨rfl, rfl⟩
      · exact ⟨rfl, rfl⟩

/-! ## Claim C4 — sweep counters sum to the record count -/

/-- C4: whenever `sync` runs to completion over the backend's listing of
passed users and reports, every record was classified into exactly one of the
four counters: they sum to the number of listed records. -/
theorem claim4_sweep_total (env : Env) (w : World) (rows : List SyncRow)
    (rep : SweepReport)
    (h : (sync env w (Except.ok rows)).1 = Except.ok rep) :
    rep.assigned + rep.already_had + rep.failed + rep.not_in_server =
      rows.length := by
  have h' : (syncLoop env w.guild rows ⟨0, 0, 0, 0⟩).1 = Except.ok rep := h
  have hsum := syncLoop_sum env rows w.guild ⟨0, 0, 0, 0⟩ rep h'
  simpa using hsum

/-- C4, witness: the spec's own sweep scenario (one fresh grant, one member
already holding the role, one identity not in the guild). -/
theorem claim4_witness :
    ((sync envA worldA (Except.ok rowsA)).1 =
      Except.ok (⟨1, 1, 0, 1⟩ : SweepReport)) ∧
    ((⟨1, 1, 0, 1⟩ : SweepReport).assigned +
        (⟨1, 1, 0, 1⟩ : SweepReport).already_had +
        (⟨1, 1, 0, 1⟩ : SweepReport).failed +
        (⟨1, 1, 0, 1⟩ : SweepReport).not_in_server = rowsA.length) :=
  ⟨rfl, claim4_sweep_total envA worldA rowsA ⟨1, 1, 0, 1⟩ rfl⟩

/-! ## Claim C6 — no sequence of engine operations demotes anyone -/

/-- C6: over any sequence of engine operations (realtime events, `verify`
commands, `sync` sweeps — every `assign_role_to_member` call in the source is
reached from one of these), starting from a well-formed guild, the guild
evolves grant-only: each member keeps their id and either keeps their role
set or has exactly the configured role appended (`roleMono`), and in
particular every member's initial role set is contained in their final one —
the configured role is never removed from a member who holds it. -/
theorem claim6_no_demotion (env : Env) (w : World) (ops : List Op)
    (hwf : w.guild.wf) :
    roleMono env.ALLOWLIST_ROLE_ID w.guild (applyOps env w ops).guild ∧
    List.Forall₂ (fun x y => x.roles ⊆ y.roles) w.guild.cached
      (applyOps env w ops).guild.cached ∧
    List.Forall₂ (fun x y => x.roles ⊆ y.roles) w.guild.external
      (applyOps env w ops).guild.external := by
  obtain ⟨hmono, _⟩ := applyOps_mono env ops w hwf
  exact ⟨hmono, hmono.2.1.imp (fun _ _ h => memberStep_subset h),
    hmono.2.2.imp (fun _ _ h => memberStep_subset h)⟩

/-- C6, witness: one operation of each kind over `guildA`. -/
theorem claim6_witness :
    worldA.guild.wf ∧
    (roleMono envA.ALLOWLIST_ROLE_ID worldA.guild
        (applyOps envA worldA opsA).guild ∧
      List.Forall₂ (fun x y => x.roles ⊆ y.roles) worldA.guild.cached
        (applyOps envA worldA opsA).guild.cached ∧
      List.Forall₂ (fun x y => x.roles ⊆ y.roles) worldA.guild.external
        (applyOps envA worldA opsA).guild.external) :=
  ⟨by decide, claim6_no_demotion envA worldA opsA (by decide)⟩

/-! ## Claim C7 — commands always reply, sweeps always complete -/

/-- C7, counterexample to the claim as stated: the sweep loop runs
`int(user['discord_id'])` unguarded, so a single unparseable `discord_id`
aborts the whole sweep with an uncaught exception and no report is produced;
likewise a failing backend query propagates out of `verify` before any reply
is built. -/
theorem claim7_counterexample :
    (sync envA worldA (Except.ok [⟨none⟩])).1.isOk = false ∧
    (verify envA worldA 5 (Except.error "backend unavailable")).1.isOk =
      false := by
  decide

/-- C7, amended: provided its backend query succeeds, `verify` always
produces a reply (grant failures are rendered, not raised), and provided the
backend query succeeds and every listed `discord_id` parses as an integer,
`sync` runs to completion and reports its four counters (member-fetch
failures are counted as `not_in_server`, not raised). A backend failure or an
unparseable `discord_id` instead propagates uncaught. -/
theorem claim7_commands_reply (env : Env) (w : World) (a : Nat)
    (rows : List UserRow) (rows2 : List SyncRow)
    (hauth : (w.guild.get_member a).isSome = true)
    (hparse : ∀ r ∈ rows2, r.discord_id.isSome = true) :
    (verify env w a (Except.ok rows)).1.isOk = true ∧
    (sync env w (Except.ok rows2)).1.isOk = true := by
  constructor
  · unfold verify
    dsimp only
    split
    · rfl
    · split
      · split
        · rename_i hnone
          rw [hnone] at hauth
          simp at hauth
        · rfl
      · rfl
  · exact syncLoop_isOk env rows2 w.guild ⟨0, 0, 0, 0⟩ hparse

/-- C7, witness: a verify reply for member `5` and a completed sweep over the
three-record listing. -/
theorem claim7_witness :
    ((worldA.guild.get_member 5).isSome = true ∧
      ∀ r ∈ rowsA, r.discord_id.isSome = true) ∧
    ((verify envA worldA 5 (Except.ok [⟨5, "passed"⟩])).1.isOk = true ∧
      (sync envA worldA (Except.ok rowsA)).1.isOk = true) :=
  ⟨⟨by decide, by decide⟩,
    claim7_commands_reply envA worldA 5 [⟨5, "passed"⟩] rowsA (by decide)
      (by decide)⟩

end Bot
